import Mathlib

/-!
Shallow embedding of `src/illumos.rs` (crate `confomat`), an FFI marshaling
layer over the illumos identity databases (user_attr, passwd, group, uname,
zones).  Foreign data crossing the FFI boundary is modelled explicitly:

* a non-null C string is a `CStrVal`: either `valid s` (its bytes decode to
  the UTF-8 string `s`) or `invalid` (undecodable bytes, `CStr::to_str` fails);
* a possibly-null `*const c_char` is an `Option CStrVal` (`none` = null);
* the per-call foreign response of a libc lookup is passed to the embedded
  function as an argument (`FfiResp`): the returned record pointer (or null)
  together with the errno value the library wrote, if any;
* the process-global `errno` cell is threaded through the password/group
  functions as explicit state (`Int` in, `Int` out), mirroring
  `clear_errno` / `errno` in the source;
* `Result<T>` becomes `Except String T`; panics / `exit` in the
  `nodename`/`zonename` family become an `Outcome` with distinct
  constructors, mirroring the fact that those Rust functions return plain
  `String` and cannot return an error value.
-/

namespace Illumos

/-- Decode outcome of a non-null C string. -/
inductive CStrVal where
  | invalid
  | valid (s : String)
deriving DecidableEq, Repr

/-- Embeds the helper `cs` in `Passwd::from` / `Group::from`:
null pointer becomes `Ok(None)`, a non-null pointer decodes with
`CStr::to_str`, whose failure propagates as an error. -/
def cs (p : Option CStrVal) : Except String (Option String) :=
  match p with
  | none => Except.ok none
  | some CStrVal.invalid => Except.error "invalid utf-8 sequence"
  | some (CStrVal.valid s) => Except.ok (some s)

/-- Embeds `CString::new(name)?`: fails iff the string holds a NUL byte. -/
def cstringNew (s : String) : Except String String :=
  if s.data.contains (Char.ofNat 0) then
    Except.error "nul byte found in provided data"
  else
    Except.ok s

/-- The attribute map of a `UserAttr` (`HashMap<String, String>` in the
source); modelled as an association list with unique keys. -/
abbrev AttrMap := List (String × String)

/-- Map insert (`HashMap::insert`): replaces the value at an existing key, otherwise
adds the binding. -/
def AttrMap.insert (m : AttrMap) (k v : String) : AttrMap :=
  if m.any (fun p => p.1 = k) then
    m.map (fun p => if p.1 = k then (k, v) else p)
  else
    m ++ [(k, v)]

/-- Map lookup (`HashMap::get`). -/
def AttrMap.get (m : AttrMap) (k : String) : Option String :=
  (m.find? (fun p => p.1 = k)).map (fun p => p.2)

/-- Mirror of `pub struct UserAttr` from the source. -/
structure UserAttr where
  name : String
  attr : AttrMap
deriving DecidableEq

/-- Rust `char::is_whitespace`: true exactly on the code points with the
Unicode White_Space property (U+0009..U+000D, U+0020, U+0085, U+00A0,
U+1680, U+2000..U+200A, U+2028, U+2029, U+202F, U+205F, U+3000), which is
what `str::trim` strips. -/
def isWsp (c : Char) : Bool :=
  (0x09 ≤ c.val && c.val ≤ 0x0D) || c.val = 0x20 || c.val = 0x85
  || c.val = 0xA0 || c.val = 0x1680
  || (0x2000 ≤ c.val && c.val ≤ 0x200A)
  || c.val = 0x2028 || c.val = 0x2029 || c.val = 0x202F || c.val = 0x205F
  || c.val = 0x3000

/-- Embeds `str::trim`: drop leading and trailing whitespace. -/
def trimChars (cs : List Char) : List Char :=
  ((cs.dropWhile isWsp).reverse.dropWhile isWsp).reverse

/-- Embeds `str::split(',')`: split at every comma; the empty string yields one
empty piece. -/
def splitComma : List Char → List (List Char)
  | [] => [[]]
  | c :: rest =>
      match splitComma rest with
      | [] => [[]]
      | g :: gs => if c = ',' then [] :: g :: gs else (c :: g) :: gs

/-- Embeds `UserAttr::profiles`: split the `"profiles"` attribute on commas and
trim each piece; empty vector when the key is absent. -/
def UserAttr.profiles (u : UserAttr) : List String :=
  match AttrMap.get u.attr "profiles" with
  | some p => (splitComma p.data).map (fun g => String.mk (trimChars g))
  | none => []

/-- The foreign `userattr_t` returned by `getusernam`, with each `kv_t`
of its `kva_t` dereferenced to its key/value C strings (the source reads
them through `CStr::from_ptr`, so they are non-null). -/
structure UserAttrRaw where
  name : Option CStrVal
  qualifier : Option CStrVal
  res1 : Option CStrVal
  res2 : Option CStrVal
  attr : List (CStrVal × CStrVal)
deriving DecidableEq

/-- The `for kv in ... values()` loop of `get_user_attr_by_name`: insert
every key/value pair whose two strings decode; skip the others. -/
def buildAttr (kvs : List (CStrVal × CStrVal)) : AttrMap :=
  kvs.foldl
    (fun m kv =>
      match kv.1, kv.2 with
      | CStrVal.valid k, CStrVal.valid v => AttrMap.insert m k v
      | _, _ => m)
    ([] : AttrMap)

/-- A key/value pair both of whose strings decode (the pairs the loop of
`get_user_attr_by_name` keeps). -/
def kvValid (kv : CStrVal × CStrVal) : Bool :=
  match kv with
  | (CStrVal.valid _, CStrVal.valid _) => true
  | _ => false

/-- Observable events on the foreign buffer during
`get_user_attr_by_name`: copying one key/value pair out, and
`free_userattr`. -/
inductive UEv where
  | copy (k v : CStrVal)
  | free
deriving DecidableEq

/-- Embeds `get_user_attr_by_name`, with its event trace on the foreign buffer.
`ffi` is the response of `getusernam` (`none` = null pointer). -/
def get_user_attr_by_name (name : String) (ffi : Option UserAttrRaw) :
    Except String (Option UserAttr) × List UEv :=
  match cstringNew name with
  | Except.error m => (Except.error m, [])
  | Except.ok _ =>
      match ffi with
      | none => (Except.ok none, [])
      | some ua =>
          (Except.ok (some { name := name, attr := buildAttr ua.attr }),
           ua.attr.map (fun kv => UEv.copy kv.1 kv.2) ++ [UEv.free])

/-- Result of a Rust function whose type promises a plain value: it either
returns one, terminates the process via `exit`, or panics (`unwrap`).
There is no error constructor, as in the source signatures. -/
inductive Outcome (α : Type) where
  | ok (a : α)
  | exit (code : Nat)
  | panicked
deriving DecidableEq

/-- Embeds `nodename()`: `r` is the return value of `libc::uname`, `nn` the C
string in the `utsname.nodename` buffer.  A negative `uname` return exits
with status 100; an undecodable name panics (`to_str().unwrap()`). -/
def nodename (r : Int) (nn : CStrVal) : Outcome String :=
  if r < 0 then Outcome.exit 100
  else
    match nn with
    | CStrVal.invalid => Outcome.panicked
    | CStrVal.valid s => Outcome.ok s

/-- Well-formedness of the zone-name buffer contents for the
`from_bytes_with_nul(..).unwrap().to_str().unwrap()` chain. -/
inductive ZoneBuf where
  | malformed
  | wellformed (s : String)
deriving DecidableEq

/-- Embeds `zonename()`: `sz` is the return value of `getzonenamebyid` and
`content` the first `sz` buffer bytes.  `sz > 64 || sz < 0` exits with
status 100; a malformed buffer panics. -/
def zonename (sz : Int) (content : ZoneBuf) : Outcome String :=
  if sz > 64 || sz < 0 then Outcome.exit 100
  else
    match content with
    | ZoneBuf.malformed => Outcome.panicked
    | ZoneBuf.wellformed s => Outcome.ok s

/-- Mirror of `pub struct Passwd` from the source (`uid`/`gid` are `u32`). -/
structure Passwd where
  name : Option String
  passwd : Option String
  uid : Nat
  gid : Nat
  age : Option String
  comment : Option String
  gecos : Option String
  dir : Option String
  shell : Option String
deriving DecidableEq

/-- The foreign `libc::passwd` record behind a non-null `getpwnam` /
`getpwuid` result. -/
structure PasswdRaw where
  pw_name : Option CStrVal
  pw_passwd : Option CStrVal
  pw_uid : Nat
  pw_gid : Nat
  pw_age : Option CStrVal
  pw_comment : Option CStrVal
  pw_gecos : Option CStrVal
  pw_dir : Option CStrVal
  pw_shell : Option CStrVal
deriving DecidableEq

/-- Embeds `Passwd::from`: decode every string field with `cs`, propagating the
first decode error; copy `pw_uid`/`pw_gid` verbatim. -/
def Passwd.fromRaw (p : PasswdRaw) : Except String Passwd := do
  let name ← cs p.pw_name
  let passwd ← cs p.pw_passwd
  let age ← cs p.pw_age
  let comment ← cs p.pw_comment
  let gecos ← cs p.pw_gecos
  let dir ← cs p.pw_dir
  let shell ← cs p.pw_shell
  pure { name := name, passwd := passwd, uid := p.pw_uid, gid := p.pw_gid,
         age := age, comment := comment, gecos := gecos, dir := dir,
         shell := shell }

/-- Mirror of `pub struct Group` from the source. -/
structure Group where
  name : Option String
  passwd : Option String
  gid : Nat
  members : Option (List String)
deriving DecidableEq

/-- The foreign `libc::group` record.  `gr_mem` is `none` for a null
member array; otherwise the list of consecutive `*mut c_char` cells of
the array, each `none` (null sentinel) or a C string. -/
structure GroupRaw where
  gr_name : Option CStrVal
  gr_passwd : Option CStrVal
  gr_gid : Nat
  gr_mem : Option (List (Option CStrVal))
deriving DecidableEq

/-- The member-walk loop of `Group::from`: read cells until the first null
sentinel, decoding each member name (a decode failure propagates, as
`cs(..)?`).  Running out of modelled cells without meeting a sentinel is
an out-of-bounds read in the C original; it is mapped to a distinguished
error. -/
def walkMems : List (Option CStrVal) → Except String (List String)
  | [] => Except.error "unterminated member array"
  | none :: _ => Except.ok []
  | some CStrVal.invalid :: _ => Except.error "invalid utf-8 sequence"
  | some (CStrVal.valid s) :: rest => (walkMems rest).map (fun l => s :: l)

/-- Embeds `Group::from`: walk the member array first (null array gives `None`),
then decode `gr_name`/`gr_passwd` and copy `gr_gid`. -/
def Group.fromRaw (g : GroupRaw) : Except String Group := do
  let membersRes : Except String (Option (List String)) :=
    match g.gr_mem with
    | some cells => (walkMems cells).map some
    | none => Except.ok (none : Option (List String))
  let members ← membersRes
  let name ← cs g.gr_name
  let passwd ← cs g.gr_passwd
  pure { name := name, passwd := passwd, gid := g.gr_gid, members := members }

/-- Foreign response of one `getpw*` / `getgr*` call: the returned record
pointer (`none` = null) and the errno value the library wrote during the
call (`none` = it left errno untouched). -/
structure FfiResp (α : Type) where
  ret : Option α
  errnoSet : Option Int
deriving DecidableEq

/-- Embeds `get_passwd_by_id`.  `errno0` is the process errno on entry; the
function clears it (`clear_errno`), performs the call, and reads errno
back.  Returns the result together with the errno cell on exit. -/
def get_passwd_by_id (uid : Nat) (ffi : FfiResp PasswdRaw) (errno0 : Int) :
    Except String (Option Passwd) × Int :=
  let errno1 : Int := 0
  let e : Int := ffi.errnoSet.getD errno1
  match ffi.ret with
  | none =>
      if e = 0 then (Except.ok none, e)
      else (Except.error ("getpwuid: errno " ++ toString e), e)
  | some raw => ((Passwd.fromRaw raw).map some, e)

/-- Embeds `get_passwd_by_name`: as `get_passwd_by_id` after first converting the
name with `CString::new(..)?`. -/
def get_passwd_by_name (name : String) (ffi : FfiResp PasswdRaw)
    (errno0 : Int) : Except String (Option Passwd) × Int :=
  let errno1 : Int := 0
  match cstringNew name with
  | Except.error m => (Except.error m, errno1)
  | Except.ok _ =>
      let e : Int := ffi.errnoSet.getD errno1
      match ffi.ret with
      | none =>
          if e = 0 then (Except.ok none, e)
          else (Except.error ("getpwnam: errno " ++ toString e), e)
      | some raw => ((Passwd.fromRaw raw).map some, e)

/-- Embeds `get_group_by_name`. -/
def get_group_by_name (name : String) (ffi : FfiResp GroupRaw)
    (errno0 : Int) : Except String (Option Group) × Int :=
  let errno1 : Int := 0
  match cstringNew name with
  | Except.error m => (Except.error m, errno1)
  | Except.ok _ =>
      let e : Int := ffi.errnoSet.getD errno1
      match ffi.ret with
      | none =>
          if e = 0 then (Except.ok none, e)
          else (Except.error ("getgrnam: errno " ++ toString e), e)
      | some raw => ((Group.fromRaw raw).map some, e)

/-- Embeds `get_group_by_id`. -/
def get_group_by_id (gid : Nat) (ffi : FfiResp GroupRaw) (errno0 : Int) :
    Except String (Option Group) × Int :=
  let errno1 : Int := 0
  let e : Int := ffi.errnoSet.getD errno1
  match ffi.ret with
  | none =>
      if e = 0 then (Except.ok none, e)
      else (Except.error ("getgrgid: errno " ++ toString e), e)
  | some raw => ((Group.fromRaw raw).map some, e)

/-- Predicate: `msg` contains `sub` as a contiguous substring. -/
def strContains (msg sub : String) : Prop :=
  ∃ pre post, msg.data = pre ++ sub.data ++ post

instance {e a : Type} [DecidableEq e] [DecidableEq a] : DecidableEq (Except e a) := fun x y =>
  match x, y with
  | Except.ok u, Except.ok v =>
      if h : u = v then isTrue (by rw [h]) else isFalse (fun hh => by cases hh; exact h rfl)
  | Except.error u, Except.error v =>
      if h : u = v then isTrue (by rw [h]) else isFalse (fun hh => by cases hh; exact h rfl)
  | Except.ok _, Except.error _ => isFalse (fun hh => by cases hh)
  | Except.error _, Except.ok _ => isFalse (fun hh => by cases hh)

/-! ## Helper lemmas -/

theorem ok_bind {α β : Type} (a : α) (f : α → Except String β) :
    (Except.ok a >>= f) = f a := rfl

theorem error_bind {α β : Type} (e : String) (f : α → Except String β) :
    ((Except.error e : Except String α) >>= f) = (Except.error e : Except String β) := rfl

theorem pure_eq_ok {α : Type} (a : α) : (pure a : Except String α) = Except.ok a := rfl

theorem string_data_append (a b : String) : (a ++ b).data = a.data ++ b.data := rfl

/-- Lemma: `cstringNew` succeeds, unchanged, on a string with no NUL byte. -/
theorem cstringNew_ok {s : String} (h : Char.ofNat 0 ∉ s.data) :
    cstringNew s = Except.ok s := by
  unfold cstringNew
  rw [if_neg]
  simp only [List.contains, List.elem_eq_mem, decide_eq_true_eq]
  exact h

/-- Characterization of successful `cs`. -/
theorem cs_ok {p : Option CStrVal} {o : Option String} (h : cs p = Except.ok o) :
    (o = none ↔ p = none) ∧ (∀ s, o = some s ↔ p = some (CStrVal.valid s)) := by
  cases p with
  | none => cases h; simp
  | some v =>
      cases v with
      | invalid => cases h
      | valid s => cases h; simp

/-- Lemma: `cs` never succeeds on an undecodable non-null string. -/
theorem cs_invalid_not_ok {o : Option String}
    (h : cs (some CStrVal.invalid) = Except.ok o) : False := by
  cases h

/-- Lemma: `cstringNew` fails on a string with a NUL byte. -/
theorem cstringNew_err {s : String} (h : Char.ofNat 0 ∈ s.data) :
    cstringNew s = Except.error "nul byte found in provided data" := by
  unfold cstringNew
  rw [if_pos]
  simp only [List.contains, List.elem_eq_mem, decide_eq_true_eq]
  exact h

/-- Lemma: an `Except` that is no `ok` is an `error`. -/
theorem except_error_of_not_ok {α : Type} (x : Except String α)
    (h : ∀ a, x ≠ Except.ok a) : ∃ e, x = Except.error e := by
  cases x with
  | error e => exact ⟨e, rfl⟩
  | ok a => exact absurd rfl (h a)

theorem strContains_of_split {msg x : String} (pre post : List Char)
    (h : msg.data = pre ++ x.data ++ post) : strContains msg x := ⟨pre, post, h⟩

theorem strContains_append_self_left (a b : String) : strContains (a ++ b) a :=
  strContains_of_split [] b.data (by rw [string_data_append]; simp)

theorem strContains_append_self_right (a b : String) : strContains (a ++ b) b :=
  strContains_of_split a.data [] (by rw [string_data_append]; simp)

theorem strContains_of_eq {m mm x : String} (h : m = mm) (hc : strContains mm x) :
    strContains m x := h ▸ hc

/-- Successful `Passwd.fromRaw` determines every field. -/
theorem passwd_fromRaw_ok {p : PasswdRaw} {pw : Passwd}
    (h : Passwd.fromRaw p = Except.ok pw) :
    cs p.pw_name = Except.ok pw.name ∧ cs p.pw_passwd = Except.ok pw.passwd ∧
    pw.uid = p.pw_uid ∧ pw.gid = p.pw_gid ∧
    cs p.pw_age = Except.ok pw.age ∧ cs p.pw_comment = Except.ok pw.comment ∧
    cs p.pw_gecos = Except.ok pw.gecos ∧ cs p.pw_dir = Except.ok pw.dir ∧
    cs p.pw_shell = Except.ok pw.shell := by
  unfold Passwd.fromRaw at h
  cases h1 : cs p.pw_name <;> rw [h1] at h
  · exact absurd h (by rw [error_bind]; intro hh; cases hh)
  rw [ok_bind] at h
  cases h2 : cs p.pw_passwd <;> rw [h2] at h
  · exact absurd h (by rw [error_bind]; intro hh; cases hh)
  rw [ok_bind] at h
  cases h3 : cs p.pw_age <;> rw [h3] at h
  · exact absurd h (by rw [error_bind]; intro hh; cases hh)
  rw [ok_bind] at h
  cases h4 : cs p.pw_comment <;> rw [h4] at h
  · exact absurd h (by rw [error_bind]; intro hh; cases hh)
  rw [ok_bind] at h
  cases h5 : cs p.pw_gecos <;> rw [h5] at h
  · exact absurd h (by rw [error_bind]; intro hh; cases hh)
  rw [ok_bind] at h
  cases h6 : cs p.pw_dir <;> rw [h6] at h
  · exact absurd h (by rw [error_bind]; intro hh; cases hh)
  rw [ok_bind] at h
  cases h7 : cs p.pw_shell <;> rw [h7] at h
  · exact absurd h (by rw [error_bind]; intro hh; cases hh)
  rw [ok_bind, pure_eq_ok] at h
  injection h with h
  subst h
  exact ⟨rfl, rfl, rfl, rfl, rfl, rfl, rfl, rfl, rfl⟩

/-- Successful `Group.fromRaw` determines every field. -/
theorem group_fromRaw_ok {g : GroupRaw} {gr : Group}
    (h : Group.fromRaw g = Except.ok gr) :
    cs g.gr_name = Except.ok gr.name ∧ cs g.gr_passwd = Except.ok gr.passwd ∧
    gr.gid = g.gr_gid ∧
    (match g.gr_mem with
     | some cells => (walkMems cells).map some
     | none => Except.ok (none : Option (List String))) = Except.ok gr.members := by
  unfold Group.fromRaw at h
  cases hm : (match g.gr_mem with
     | some cells => (walkMems cells).map some
     | none => Except.ok (none : Option (List String))) <;> rw [hm] at h
  · exact absurd h (by rw [error_bind]; intro hh; cases hh)
  rw [ok_bind] at h
  cases h1 : cs g.gr_name <;> rw [h1] at h
  · exact absurd h (by rw [error_bind]; intro hh; cases hh)
  rw [ok_bind] at h
  cases h2 : cs g.gr_passwd <;> rw [h2] at h
  · exact absurd h (by rw [error_bind]; intro hh; cases hh)
  rw [ok_bind, pure_eq_ok] at h
  injection h with h
  subst h
  exact ⟨rfl, rfl, rfl, rfl⟩

/-- Walking a null-terminated array of decodable member names yields
exactly those names. -/
theorem walkMems_valid (names : List String) (rest : List (Option CStrVal)) :
    walkMems ((names.map fun s => some (CStrVal.valid s)) ++ none :: rest)
      = Except.ok names := by
  induction names with
  | nil => rfl
  | cons s ss ih => simp [walkMems, ih, Except.map]

/-- Folding the insert loop over a key/value list ignores the pairs that
do not decode. -/
theorem buildAttr_go_filter (kvs : List (CStrVal × CStrVal)) :
    ∀ m : AttrMap,
      kvs.foldl
        (fun m kv =>
          match kv.1, kv.2 with
          | CStrVal.valid k, CStrVal.valid v => AttrMap.insert m k v
          | _, _ => m) m
      = (kvs.filter kvValid).foldl
          (fun m kv =>
            match kv.1, kv.2 with
            | CStrVal.valid k, CStrVal.valid v => AttrMap.insert m k v
            | _, _ => m) m := by
  induction kvs with
  | nil => intro m; rfl
  | cons kv rest ih =>
      intro m
      cases hk : kvValid kv
      · have hstep :
            (match kv.1, kv.2 with
             | CStrVal.valid k, CStrVal.valid v => AttrMap.insert m k v
             | _, _ => m) = m := by
          rcases kv with ⟨k, v⟩
          cases k <;> cases v <;> first | rfl | (exact absurd hk (by simp [kvValid]))
        simp [List.filter, hk, hstep, ih]
      · simp [List.filter, hk, ih]

/-! ## Claim theorems -/

/-- C4: for every `UserAttr` whose attribute map binds `"profiles"`,
`UserAttr::profiles` returns the comma-separated pieces of the value in
order, each trimmed, with no deduplication; on the value `"a, b,c"` it
returns exactly `["a", "b", "c"]` (trimming also strips non-ASCII
White_Space such as NBSP, vertical tab, form feed, as `str::trim` does). -/
theorem profiles_split_trim :
    (∀ (u : UserAttr) (v : String), AttrMap.get u.attr "profiles" = some v →
       u.profiles = (splitComma v.data).map (fun g => String.mk (trimChars g)))
    ∧ (∀ u : UserAttr, AttrMap.get u.attr "profiles" = some "a, b,c" →
       u.profiles = ["a", "b", "c"])
    ∧ (∀ u : UserAttr, AttrMap.get u.attr "profiles" = some "a,a" →
       u.profiles = ["a", "a"])
    ∧ (∀ u : UserAttr, AttrMap.get u.attr "profiles" = some "a,\u00A0b,\x0Bc\x0C" →
       u.profiles = ["a", "b", "c"]) := by
  refine ⟨?_, ?_, ?_, ?_⟩
  · intro u v h
    unfold UserAttr.profiles
    rw [h]
  · intro u h
    unfold UserAttr.profiles
    rw [h]
    decide
  · intro u h
    unfold UserAttr.profiles
    rw [h]
    decide
  · intro u h
    unfold UserAttr.profiles
    rw [h]
    decide

theorem profiles_split_trim_witness :
    (UserAttr.mk "x" [("profiles", "a, b,c")]).profiles = ["a", "b", "c"] :=
  profiles_split_trim.2.1 (UserAttr.mk "x" [("profiles", "a, b,c")]) (by decide)

/-- C3: `nodename` and `zonename` never return an error value (their
result type has no error constructor); failure of `uname`, or a failed or
truncated zone-name lookup, terminates the process with exit status 100,
while the success paths return the looked-up string. -/
theorem nodename_zonename_fatal :
    (∀ (r : Int) (nn : CStrVal), r < 0 → nodename r nn = Outcome.exit 100)
    ∧ (∀ (sz : Int) (c : ZoneBuf), 64 < sz ∨ sz < 0 →
        zonename sz c = Outcome.exit 100)
    ∧ (∀ (r : Int) (s : String), 0 ≤ r →
        nodename r (CStrVal.valid s) = Outcome.ok s)
    ∧ (∀ (sz : Int) (s : String), 0 ≤ sz → sz ≤ 64 →
        zonename sz (ZoneBuf.wellformed s) = Outcome.ok s) := by
  refine ⟨?_, ?_, ?_, ?_⟩
  · intro r nn h
    unfold nodename
    rw [if_pos h]
  · intro sz c h
    unfold zonename
    rw [if_pos]
    simp only [Bool.or_eq_true, decide_eq_true_eq]
    omega
  · intro r s h
    unfold nodename
    rw [if_neg (by omega)]
  · intro sz s h1 h2
    unfold zonename
    rw [if_neg]
    simp only [Bool.or_eq_true, decide_eq_true_eq]
    omega

theorem nodename_zonename_fatal_witness :
    nodename (-1) (CStrVal.valid "host") = Outcome.exit 100
    ∧ zonename 65 (ZoneBuf.wellformed "z") = Outcome.exit 100
    ∧ nodename 0 (CStrVal.valid "host") = Outcome.ok "host"
    ∧ zonename 7 (ZoneBuf.wellformed "global") = Outcome.ok "global" :=
  ⟨nodename_zonename_fatal.1 (-1) (CStrVal.valid "host") (by decide),
   nodename_zonename_fatal.2.1 65 (ZoneBuf.wellformed "z") (Or.inl (by decide)),
   nodename_zonename_fatal.2.2.1 0 "host" (by decide),
   nodename_zonename_fatal.2.2.2 7 "global" (by decide) (by decide)⟩

/-- C9: each lookup's result is a function of its own argument and its
own foreign response only: it is invariant under the incoming errno
state, hence under any preceding call, and running a lookup after
another lookup gives the same answer as running it alone. -/
theorem lookup_no_cross_call_state :
    (∀ (name : String) (r : FfiResp PasswdRaw) (s₁ s₂ : Int),
        get_passwd_by_name name r s₁ = get_passwd_by_name name r s₂)
    ∧ (∀ (uid : Nat) (r : FfiResp PasswdRaw) (s₁ s₂ : Int),
        get_passwd_by_id uid r s₁ = get_passwd_by_id uid r s₂)
    ∧ (∀ (name : String) (r : FfiResp GroupRaw) (s₁ s₂ : Int),
        get_group_by_name name r s₁ = get_group_by_name name r s₂)
    ∧ (∀ (gid : Nat) (r : FfiResp GroupRaw) (s₁ s₂ : Int),
        get_group_by_id gid r s₁ = get_group_by_id gid r s₂)
    ∧ (∀ (n₁ n₂ : String) (r₁ r₂ : FfiResp PasswdRaw) (s : Int),
        get_passwd_by_name n₂ r₂ (get_passwd_by_name n₁ r₁ s).2
          = get_passwd_by_name n₂ r₂ s) :=
  ⟨fun _ _ _ _ => rfl, fun _ _ _ _ => rfl, fun _ _ _ _ => rfl,
   fun _ _ _ _ => rfl, fun _ _ _ _ _ => rfl⟩

/-- C10: whenever `get_user_attr_by_name name` succeeds with a record,
that record's `name` is the caller's argument, whatever the foreign
record's own name field holds. -/
theorem user_attr_name_from_argument :
    ∀ (name : String) (r : Option UserAttrRaw) (ua : UserAttr),
      (get_user_attr_by_name name r).1 = Except.ok (some ua) →
      ua.name = name := by
  intro name r ua h
  unfold get_user_attr_by_name at h
  cases hc : cstringNew name <;> rw [hc] at h
  · cases h
  · cases r with
    | none => exact absurd h (by simp)
    | some raw =>
        simp only [Except.ok.injEq, Option.some.injEq] at h
        cases h
        rfl

theorem user_attr_name_from_argument_witness :
    (UserAttr.mk "root" []).name = "root" :=
  user_attr_name_from_argument "root"
    (some ⟨some (CStrVal.valid "other"), none, none, none, []⟩)
    (UserAttr.mk "root" []) (by decide)

/-- C2 counterexample: the name `"a\x00b"` has no matching directory
entry (the foreign call cannot even be made), yet `get_passwd_by_name`
returns an error, not `Ok(None)`. -/
theorem lookup_nul_name_counterexample :
    (get_passwd_by_name "a\x00b" ⟨none, none⟩ 0).1
      = Except.error "nul byte found in provided data"
    ∧ (get_passwd_by_name "a\x00b" ⟨none, none⟩ 0).1 ≠ Except.ok none := by
  constructor
  · decide
  · decide

/-- C2 (amended): for any NUL-free name, or any id, with no matching
directory entry (null result, zero errno), every lookup returns
`Ok(None)` and not an error; a name holding a NUL byte instead yields an
encoding error before the foreign call is made. -/
theorem lookup_absent_gives_none :
    (∀ (name : String) (o : Option Int) (s : Int),
        Char.ofNat 0 ∉ name.data → o.getD 0 = 0 →
        (get_user_attr_by_name name none).1 = Except.ok none
      ∧ (get_passwd_by_name name ⟨none, o⟩ s).1 = Except.ok none
      ∧ (get_group_by_name name ⟨none, o⟩ s).1 = Except.ok none)
    ∧ (∀ (uid gid : Nat) (o : Option Int) (s : Int), o.getD 0 = 0 →
        (get_passwd_by_id uid ⟨none, o⟩ s).1 = Except.ok none
      ∧ (get_group_by_id gid ⟨none, o⟩ s).1 = Except.ok none)
    ∧ (∀ (name : String) (r : FfiResp PasswdRaw) (s : Int),
        Char.ofNat 0 ∈ name.data →
        (get_passwd_by_name name r s).1
          = Except.error "nul byte found in provided data") := by
  refine ⟨?_, ?_, ?_⟩
  · intro name o s hn he
    refine ⟨?_, ?_, ?_⟩ <;>
      simp [get_user_attr_by_name, get_passwd_by_name, get_group_by_name,
            cstringNew_ok hn, he]
  · intro uid gid o s he
    constructor <;> simp [get_passwd_by_id, get_group_by_id, he]
  · intro name r s hn
    simp [get_passwd_by_name, cstringNew_err hn]

theorem lookup_absent_gives_none_witness :
    (get_passwd_by_name "nobody" ⟨none, some 0⟩ 3).1 = Except.ok none
    ∧ (get_group_by_id 12 ⟨none, none⟩ 5).1 = Except.ok none
    ∧ (get_passwd_by_name "a\x00b" ⟨none, none⟩ 0).1
        = Except.error "nul byte found in provided data" :=
  ⟨(lookup_absent_gives_none.1 "nobody" (some 0) 3 (by decide) (by decide)).2.1,
   (lookup_absent_gives_none.2.1 9 12 none 5 (by decide)).2,
   lookup_absent_gives_none.2.2 "a\x00b" ⟨none, none⟩ 0 (by decide)⟩

/-- C1: on a null foreign result, the password/group lookups return
`Ok(None)` exactly when the errno channel holds the zero sentinel, and
otherwise an error whose message contains the failing C call's name and
the numeric errno code. -/
theorem lookup_errno_sentinel :
    (∀ (uid : Nat) (o : Option Int) (s : Int),
        ((o.getD 0 = 0 → (get_passwd_by_id uid ⟨none, o⟩ s).1 = Except.ok none)
       ∧ (o.getD 0 ≠ 0 → ∃ msg, (get_passwd_by_id uid ⟨none, o⟩ s).1 = Except.error msg
            ∧ strContains msg "getpwuid" ∧ strContains msg (toString (o.getD 0)))))
    ∧ (∀ (name : String) (o : Option Int) (s : Int), Char.ofNat 0 ∉ name.data →
        ((o.getD 0 = 0 → (get_passwd_by_name name ⟨none, o⟩ s).1 = Except.ok none)
       ∧ (o.getD 0 ≠ 0 → ∃ msg, (get_passwd_by_name name ⟨none, o⟩ s).1 = Except.error msg
            ∧ strContains msg "getpwnam" ∧ strContains msg (toString (o.getD 0)))))
    ∧ (∀ (name : String) (o : Option Int) (s : Int), Char.ofNat 0 ∉ name.data →
        ((o.getD 0 = 0 → (get_group_by_name name ⟨none, o⟩ s).1 = Except.ok none)
       ∧ (o.getD 0 ≠ 0 → ∃ msg, (get_group_by_name name ⟨none, o⟩ s).1 = Except.error msg
            ∧ strContains msg "getgrnam" ∧ strContains msg (toString (o.getD 0)))))
    ∧ (∀ (gid : Nat) (o : Option Int) (s : Int),
        ((o.getD 0 = 0 → (get_group_by_id gid ⟨none, o⟩ s).1 = Except.ok none)
       ∧ (o.getD 0 ≠ 0 → ∃ msg, (get_group_by_id gid ⟨none, o⟩ s).1 = Except.error msg
            ∧ strContains msg "getgrgid" ∧ strContains msg (toString (o.getD 0))))) := by
  refine ⟨?_, ?_, ?_, ?_⟩
  · intro uid o s
    constructor
    · intro he; simp [get_passwd_by_id, he]
    · intro he
      refine ⟨"getpwuid: errno " ++ toString (o.getD 0), ?_, ?_, ?_⟩
      · simp [get_passwd_by_id, he]
      · refine strContains_of_eq ?_ (strContains_append_self_left "getpwuid" (": errno " ++ toString (o.getD 0)))
        rw [← String.append_assoc]
        rw [(by decide : ("getpwuid" : String) ++ ": errno " = "getpwuid: errno ")]
      · exact strContains_append_self_right "getpwuid: errno " (toString (o.getD 0))
  · intro name o s hn
    constructor
    · intro he; simp [get_passwd_by_name, cstringNew_ok hn, he]
    · intro he
      refine ⟨"getpwnam: errno " ++ toString (o.getD 0), ?_, ?_, ?_⟩
      · simp [get_passwd_by_name, cstringNew_ok hn, he]
      · refine strContains_of_eq ?_ (strContains_append_self_left "getpwnam" (": errno " ++ toString (o.getD 0)))
        rw [← String.append_assoc]
        rw [(by decide : ("getpwnam" : String) ++ ": errno " = "getpwnam: errno ")]
      · exact strContains_append_self_right "getpwnam: errno " (toString (o.getD 0))
  · intro name o s hn
    constructor
    · intro he; simp [get_group_by_name, cstringNew_ok hn, he]
    · intro he
      refine ⟨"getgrnam: errno " ++ toString (o.getD 0), ?_, ?_, ?_⟩
      · simp [get_group_by_name, cstringNew_ok hn, he]
      · refine strContains_of_eq ?_ (strContains_append_self_left "getgrnam" (": errno " ++ toString (o.getD 0)))
        rw [← String.append_assoc]
        rw [(by decide : ("getgrnam" : String) ++ ": errno " = "getgrnam: errno ")]
      · exact strContains_append_self_right "getgrnam: errno " (toString (o.getD 0))
  · intro gid o s
    constructor
    · intro he; simp [get_group_by_id, he]
    · intro he
      refine ⟨"getgrgid: errno " ++ toString (o.getD 0), ?_, ?_, ?_⟩
      · simp [get_group_by_id, he]
      · refine strContains_of_eq ?_ (strContains_append_self_left "getgrgid" (": errno " ++ toString (o.getD 0)))
        rw [← String.append_assoc]
        rw [(by decide : ("getgrgid" : String) ++ ": errno " = "getgrgid: errno ")]
      · exact strContains_append_self_right "getgrgid: errno " (toString (o.getD 0))

theorem lookup_errno_sentinel_witness :
    (get_passwd_by_id 42 ⟨none, some 0⟩ 1).1 = Except.ok none
    ∧ (∃ msg, (get_passwd_by_id 42 ⟨none, some 5⟩ 0).1 = Except.error msg
        ∧ strContains msg "getpwuid" ∧ strContains msg (toString ((some (5 : Int)).getD 0)))
    ∧ (∃ msg, (get_group_by_name "adm" ⟨none, some 3⟩ 0).1 = Except.error msg
        ∧ strContains msg "getgrnam" ∧ strContains msg (toString ((some (3 : Int)).getD 0))) :=
  ⟨(lookup_errno_sentinel.1 42 (some 0) 1).1 (by decide),
   (lookup_errno_sentinel.1 42 (some 5) 0).2 (by decide),
   (lookup_errno_sentinel.2.2.1 "adm" (some 3) 0 (by decide)).2 (by decide)⟩

/-- C5: a successfully converted `Passwd` has each optional string field
`None` exactly when the C pointer was null and `Some` of the exact
decoded string otherwise, and `uid`/`gid` copied verbatim. -/
theorem passwd_fields_marshaled :
    ∀ (raw : PasswdRaw) (pw : Passwd), Passwd.fromRaw raw = Except.ok pw →
      pw.uid = raw.pw_uid ∧ pw.gid = raw.pw_gid
      ∧ ((pw.name = none ↔ raw.pw_name = none)
         ∧ ∀ s, pw.name = some s ↔ raw.pw_name = some (CStrVal.valid s))
      ∧ ((pw.passwd = none ↔ raw.pw_passwd = none)
         ∧ ∀ s, pw.passwd = some s ↔ raw.pw_passwd = some (CStrVal.valid s))
      ∧ ((pw.age = none ↔ raw.pw_age = none)
         ∧ ∀ s, pw.age = some s ↔ raw.pw_age = some (CStrVal.valid s))
      ∧ ((pw.comment = none ↔ raw.pw_comment = none)
         ∧ ∀ s, pw.comment = some s ↔ raw.pw_comment = some (CStrVal.valid s))
      ∧ ((pw.gecos = none ↔ raw.pw_gecos = none)
         ∧ ∀ s, pw.gecos = some s ↔ raw.pw_gecos = some (CStrVal.valid s))
      ∧ ((pw.dir = none ↔ raw.pw_dir = none)
         ∧ ∀ s, pw.dir = some s ↔ raw.pw_dir = some (CStrVal.valid s))
      ∧ ((pw.shell = none ↔ raw.pw_shell = none)
         ∧ ∀ s, pw.shell = some s ↔ raw.pw_shell = some (CStrVal.valid s)) := by
  intro raw pw h
  obtain ⟨h1, h2, hu, hg, h3, h4, h5, h6, h7⟩ := passwd_fromRaw_ok h
  exact ⟨hu, hg, cs_ok h1, cs_ok h2, cs_ok h3, cs_ok h4, cs_ok h5,
         cs_ok h6, cs_ok h7⟩

theorem passwd_fields_marshaled_witness :
    (Passwd.mk (some "root") none 0 0 none none (some "Super-User")
        (some "/root") (some "/bin/sh")).uid
      = (PasswdRaw.mk (some (CStrVal.valid "root")) none 0 0 none none
          (some (CStrVal.valid "Super-User")) (some (CStrVal.valid "/root"))
          (some (CStrVal.valid "/bin/sh"))).pw_uid :=
  (passwd_fields_marshaled
    (PasswdRaw.mk (some (CStrVal.valid "root")) none 0 0 none none
      (some (CStrVal.valid "Super-User")) (some (CStrVal.valid "/root"))
      (some (CStrVal.valid "/bin/sh")))
    (Passwd.mk (some "root") none 0 0 none none (some "Super-User")
      (some "/root") (some "/bin/sh"))
    (by decide)).1

/-- C6: for a null-terminated member array of decodable names,
`Group::from` succeeds and `members` is exactly the ordered names before
the first null sentinel; a null member array converts to `None` and an
array whose first cell is the sentinel to `Some []`, never an error. -/
theorem group_members_walk :
    ∀ (g : GroupRaw) (names : List String) (rest : List (Option CStrVal))
      (n p : Option String),
      cs g.gr_name = Except.ok n → cs g.gr_passwd = Except.ok p →
      (g.gr_mem = some ((names.map fun s => some (CStrVal.valid s)) ++ none :: rest) →
         Group.fromRaw g = Except.ok ⟨n, p, g.gr_gid, some names⟩)
      ∧ (g.gr_mem = none →
         Group.fromRaw g = Except.ok ⟨n, p, g.gr_gid, none⟩) := by
  intro g names rest n p hn hp
  constructor <;> intro hm <;> unfold Group.fromRaw <;> rw [hm] <;>
    simp [walkMems_valid, hn, hp, Except.map, ok_bind, pure_eq_ok]

theorem group_members_walk_witness :
    Group.fromRaw ⟨some (CStrVal.valid "adm"), none, 4,
        some [some (CStrVal.valid "u1"), some (CStrVal.valid "u2"), none]⟩
      = Except.ok ⟨some "adm", none, 4, some ["u1", "u2"]⟩
    ∧ Group.fromRaw ⟨some (CStrVal.valid "adm"), none, 4, some [none]⟩
      = Except.ok ⟨some "adm", none, 4, some []⟩
    ∧ Group.fromRaw ⟨some (CStrVal.valid "adm"), none, 4, none⟩
      = Except.ok ⟨some "adm", none, 4, none⟩ :=
  ⟨(group_members_walk ⟨some (CStrVal.valid "adm"), none, 4,
      some [some (CStrVal.valid "u1"), some (CStrVal.valid "u2"), none]⟩
      ["u1", "u2"] [] (some "adm") none (by decide) (by decide)).1 rfl,
   (group_members_walk ⟨some (CStrVal.valid "adm"), none, 4, some [none]⟩
      [] [] (some "adm") none (by decide) (by decide)).1 rfl,
   (group_members_walk ⟨some (CStrVal.valid "adm"), none, 4, none⟩
      [] [] (some "adm") none (by decide) (by decide)).2 rfl⟩

/-- C7: undecodable text is handled asymmetrically: an attribute-map
entry with an undecodable key or value is silently skipped and
`get_user_attr_by_name` still succeeds with the remaining entries,
whereas an undecodable non-null string field makes `Passwd::from` /
`Group::from` fail the whole conversion. -/
theorem decode_failure_asymmetry :
    (∀ name : String, Char.ofNat 0 ∉ name.data → ∀ ua : UserAttrRaw,
       (get_user_attr_by_name name (some ua)).1
         = Except.ok (some ⟨name, buildAttr ua.attr⟩))
    ∧ (∀ kvs : List (CStrVal × CStrVal),
        buildAttr kvs = buildAttr (kvs.filter kvValid))
    ∧ (∀ raw : PasswdRaw,
        (raw.pw_name = some CStrVal.invalid ∨ raw.pw_passwd = some CStrVal.invalid
         ∨ raw.pw_age = some CStrVal.invalid ∨ raw.pw_comment = some CStrVal.invalid
         ∨ raw.pw_gecos = some CStrVal.invalid ∨ raw.pw_dir = some CStrVal.invalid
         ∨ raw.pw_shell = some CStrVal.invalid) →
        ∃ e, Passwd.fromRaw raw = Except.error e)
    ∧ (∀ g : GroupRaw,
        (g.gr_name = some CStrVal.invalid ∨ g.gr_passwd = some CStrVal.invalid) →
        ∃ e, Group.fromRaw g = Except.error e) := by
  refine ⟨?_, ?_, ?_, ?_⟩
  · intro name hn ua
    simp [get_user_attr_by_name, cstringNew_ok hn]
  · intro kvs
    unfold buildAttr
    exact buildAttr_go_filter kvs []
  · intro raw hf
    apply except_error_of_not_ok
    intro pw hok
    obtain ⟨h1, h2, _, _, h3, h4, h5, h6, h7⟩ := passwd_fromRaw_ok hok
    rcases hf with hf | hf | hf | hf | hf | hf | hf <;>
      [rw [hf] at h1; rw [hf] at h2; rw [hf] at h3; rw [hf] at h4;
       rw [hf] at h5; rw [hf] at h6; rw [hf] at h7] <;>
      first
        | exact cs_invalid_not_ok h1
        | exact cs_invalid_not_ok h2
        | exact cs_invalid_not_ok h3
        | exact cs_invalid_not_ok h4
        | exact cs_invalid_not_ok h5
        | exact cs_invalid_not_ok h6
        | exact cs_invalid_not_ok h7
  · intro g hf
    apply except_error_of_not_ok
    intro gr hok
    obtain ⟨h1, h2, _, _⟩ := group_fromRaw_ok hok
    rcases hf with hf | hf <;> [rw [hf] at h1; rw [hf] at h2] <;>
      first
        | exact cs_invalid_not_ok h1
        | exact cs_invalid_not_ok h2

theorem decode_failure_asymmetry_witness :
    (get_user_attr_by_name "u"
        (some ⟨none, none, none, none,
          [(CStrVal.invalid, CStrVal.valid "dropped"),
           (CStrVal.valid "type", CStrVal.valid "role")]⟩)).1
      = Except.ok (some ⟨"u", buildAttr
          [(CStrVal.invalid, CStrVal.valid "dropped"),
           (CStrVal.valid "type", CStrVal.valid "role")]⟩)
    ∧ (∃ e, Passwd.fromRaw
          ⟨some CStrVal.invalid, none, 0, 0, none, none, none, none, none⟩
        = Except.error e)
    ∧ (∃ e, Group.fromRaw ⟨some CStrVal.invalid, none, 0, none⟩
        = Except.error e) :=
  ⟨decode_failure_asymmetry.1 "u" (by decide)
      ⟨none, none, none, none,
        [(CStrVal.invalid, CStrVal.valid "dropped"),
         (CStrVal.valid "type", CStrVal.valid "role")]⟩,
   decode_failure_asymmetry.2.2.1
      ⟨some CStrVal.invalid, none, 0, 0, none, none, none, none, none⟩
      (Or.inl rfl),
   decode_failure_asymmetry.2.2.2 ⟨some CStrVal.invalid, none, 0, none⟩
      (Or.inl rfl)⟩

/-- C8: per call of `get_user_attr_by_name` with a non-null foreign
buffer, the buffer is freed exactly once, and only after every key/value
pair has been copied out (the free event is the last event of the
trace); with a null result nothing is freed. -/
theorem buffer_freed_once_after_copy :
    ∀ name : String, Char.ofNat 0 ∉ name.data →
      (∀ ua : UserAttrRaw,
         (get_user_attr_by_name name (some ua)).2
           = ua.attr.map (fun kv => UEv.copy kv.1 kv.2) ++ [UEv.free]
         ∧ UEv.free ∉ ua.attr.map (fun kv => UEv.copy kv.1 kv.2))
      ∧ (get_user_attr_by_name name none).2 = [] := by
  intro name h
  refine ⟨fun ua => ⟨?_, ?_⟩, ?_⟩ <;>
    simp [get_user_attr_by_name, cstringNew_ok h]

theorem buffer_freed_once_after_copy_witness :
    (get_user_attr_by_name "root"
        (some ⟨none, none, none, none,
          [(CStrVal.valid "k", CStrVal.valid "v")]⟩)).2
      = [UEv.copy (CStrVal.valid "k") (CStrVal.valid "v"), UEv.free]
    ∧ (get_user_attr_by_name "root" none).2 = [] :=
  ⟨((buffer_freed_once_after_copy "root" (by decide)).1
      ⟨none, none, none, none, [(CStrVal.valid "k", CStrVal.valid "v")]⟩).1,
   (buffer_freed_once_after_copy "root" (by decide)).2⟩

end Illumos
